import Mathlib

/-!
Verification of `src/nodriver/core/util.py` (zendriver).

We shallowly embed the tree query/mutation engine (`filter_recurse_all`,
`filter_recurse`, `remove_from_tree`, `html_from_tree`), the process
lifecycle drain (`deconstruct_browser`) and the port helper (`free_port`)
as executable Lean functions, and prove the spec's claims about them.

Modelling conventions:
* A CDP DOM node is modelled by the fields these functions read:
  `backend_node_id` and the ordered `children` list.  `children = []`
  models both Python `None` and `[]` (both are falsy in the guards
  `if doc and doc.children`, and no other operation distinguishes them).
* Python values that may lack a `.children` attribute are modelled by
  `PyObj`: either a proper `Node` or some other object.  The
  `hasattr(doc, "children")` guard of each function maps to a match on
  `PyObj`; recursive calls always receive proper nodes (a `Node` child
  always has the attribute), so the recursive cores work on `Node`.
* Exceptions are modelled with `Except`.
-/

/-- A DOM node: stable identity plus ordered children (document order). -/
inductive Node : Type where
  | mk : Nat → List Node → Node

mutual

/-- Dataclass equality of nodes (Python `==`), decidable. -/
def Node.decEq : (a b : Node) → Decidable (a = b)
  | .mk i cs, .mk j ds =>
    match Nat.decEq i j with
    | isFalse h => isFalse (by intro he; cases he; exact h rfl)
    | isTrue hi =>
      match Node.decEqList cs ds with
      | isTrue hc => isTrue (by rw [hi, hc])
      | isFalse h => isFalse (by intro he; cases he; exact h rfl)

/-- Dataclass equality on child lists, decidable. -/
def Node.decEqList : (a b : List Node) → Decidable (a = b)
  | [], [] => isTrue rfl
  | [], _ :: _ => isFalse (by intro he; cases he)
  | _ :: _, [] => isFalse (by intro he; cases he)
  | a :: as, b :: bs =>
    match Node.decEq a b, Node.decEqList as bs with
    | isTrue h1, isTrue h2 => isTrue (by rw [h1, h2])
    | isFalse h1, _ => isFalse (by intro he; cases he; exact h1 rfl)
    | isTrue _, isFalse h2 => isFalse (by intro he; cases he; exact h2 rfl)

end

instance : DecidableEq Node := Node.decEq

/-- Identity of a node (`backend_node_id` in the source). -/
def Node.backend_node_id : Node → Nat
  | .mk i _ => i

/-- Ordered children of a node (`children` in the source). -/
def Node.children : Node → List Node
  | .mk _ cs => cs

/-- A Python value passed where a tree is expected: either a proper node
(which has a `.children` attribute) or any other object (which lacks it). -/
inductive PyObj : Type where
  | node : Node → PyObj
  | other : PyObj
deriving DecidableEq

/-- Errors raised by the embedded functions: the `TypeError` of the
malformed-tree guard, and transport-level failures (opaque code) raised
by a remote fetch during serialization. -/
inductive Err : Type where
  | typeError : Err
  | transport : Nat → Err
deriving DecidableEq

deriving instance DecidableEq for Except

mutual

/-- Core of `filter_recurse_all` after the `hasattr` guard: for each child
in order, append the child when the predicate holds, then append all
matches from the child's subtree (`out.extend(filter_recurse_all(child))`). -/
def filterRecurseAllCore (p : Node → Bool) : Node → List Node
  | .mk _ cs => filterRecurseAllList p cs

/-- Loop of `filter_recurse_all` over a child list. -/
def filterRecurseAllList (p : Node → Bool) : List Node → List Node
  | [] => []
  | c :: cs =>
      (if p c then [c] else []) ++ filterRecurseAllCore p c
        ++ filterRecurseAllList p cs

end

mutual

/-- Core of `filter_recurse` after the `hasattr` guard: for each child in
order, return the child if the predicate holds, else the first match in
the child's subtree if any (`if result: return result`; nodes are always
truthy, so truthiness tests for a found node), else move to the next
sibling.  Falling off the loop returns Python `None`. -/
def filterRecurseCore (p : Node → Bool) : Node → Option Node
  | .mk _ cs => filterRecurseList p cs

/-- Loop of `filter_recurse` over a child list. -/
def filterRecurseList (p : Node → Bool) : List Node → Option Node
  | [] => none
  | c :: cs =>
      if p c then some c
      else
        match filterRecurseCore p c with
        | some r => some r
        | none => filterRecurseList p cs

end

/-- The source function `filter_recurse_all`, with its `hasattr` guard:
on an object without `.children` it raises `TypeError`. -/
def filter_recurse_all (doc : PyObj) (p : Node → Bool) :
    Except Err (List Node) :=
  match doc with
  | .other => .error .typeError
  | .node n => .ok (filterRecurseAllCore p n)

/-- The source function `filter_recurse`, with its `hasattr` guard. -/
def filter_recurse (doc : PyObj) (p : Node → Bool) :
    Except Err (Option Node) :=
  match doc with
  | .other => .error .typeError
  | .node n => .ok (filterRecurseCore p n)

mutual

/-- The strict subtree of a node in document order: every descendant
(excluding the node itself), parents before their own subtrees, siblings
left to right.  This is the specification-side notion of "document
order" used to characterise the traversals. -/
def docOrderDescendants : Node → List Node
  | .mk _ cs => docOrderDescendantsList cs

/-- Document-order flattening of a forest. -/
def docOrderDescendantsList : List Node → List Node
  | [] => []
  | c :: cs => c :: (docOrderDescendants c ++ docOrderDescendantsList cs)

end

mutual

theorem filterRecurseAllCore_eq_filter (p : Node → Bool) (n : Node) :
    filterRecurseAllCore p n = (docOrderDescendants n).filter p := by
  match n with
  | .mk i cs =>
    rw [filterRecurseAllCore, docOrderDescendants]
    exact filterRecurseAllList_eq_filter p cs

theorem filterRecurseAllList_eq_filter (p : Node → Bool) (cs : List Node) :
    filterRecurseAllList p cs = (docOrderDescendantsList cs).filter p := by
  match cs with
  | [] => rfl
  | c :: cs' =>
    rw [filterRecurseAllList, docOrderDescendantsList,
      filterRecurseAllCore_eq_filter p c, filterRecurseAllList_eq_filter p cs',
      List.filter_cons, List.filter_append]
    cases h : p c <;> simp [h]

end

mutual

theorem filterRecurseCore_eq_head (p : Node → Bool) (n : Node) :
    filterRecurseCore p n = (filterRecurseAllCore p n).head? := by
  match n with
  | .mk i cs =>
    rw [filterRecurseCore, filterRecurseAllCore]
    exact filterRecurseList_eq_head p cs

theorem filterRecurseList_eq_head (p : Node → Bool) (cs : List Node) :
    filterRecurseList p cs = (filterRecurseAllList p cs).head? := by
  match cs with
  | [] => rfl
  | c :: cs' =>
    rw [filterRecurseList, filterRecurseAllList]
    cases h : p c
    · rw [if_neg (by simp [h]), if_neg (by simp [h]), List.nil_append,
        filterRecurseCore_eq_head p c, filterRecurseList_eq_head p cs']
      cases hall : filterRecurseAllCore p c with
      | nil => simp
      | cons x xs => simp
    · rw [if_pos (by simp [h]), if_pos (by simp [h])]
      simp

end

/-!
Embedding of `remove_from_tree`.  The source iterates over
`tree.children` with a `for` loop and calls `tree.children.remove(child)`
inside the loop.  CPython semantics being modelled:

* the list iterator is index based: it yields `L[k]` and advances `k`,
  reading the list as it currently is;
* `list.remove(x)` deletes the first element that compares `==` to `x`
  (dataclass equality on nodes); the removed element is `child` itself
  unless an earlier, already visited entry compares equal to it;
* deleting an element shifts the rest left, so after a `remove` the
  iterator skips the element that directly followed the removed position:
  that sibling is never yielded, hence never tested and never recursed
  into.

The scan is modelled with an accumulator `done` (entries before the
iterator, already visited and updated in place) and `todo` (raw entries
the iterator has not reached).  When the current child matches the
target identity, `remove` deletes the first `==` entry of
`done ++ child :: todo`: an entry of `done` when one compares equal
(then `child` stays, is recursed into in place and lands in `done`),
else `child` itself (the recursion into the now detached child has no
effect on the tree).  Either way the list got shorter, so the head of
`todo` is appended raw without being visited.
-/

mutual

/-- Core of `remove_from_tree` after the `hasattr` guard, keyed by the
target identity (`node.backend_node_id`). -/
def removeFromTreeCore (targetId : Nat) : Node → Node
  | .mk i cs => .mk i (removeScan targetId [] cs)

/-- One iteration of the `for child in tree.children` loop. -/
def removeScan (targetId : Nat) (done : List Node) : List Node → List Node
  | [] => done
  | c :: todo =>
      if c.backend_node_id = targetId then
        if done.contains c then
          removeSkip targetId
            (done.erase c ++ [removeFromTreeCore targetId c]) todo
        else
          removeSkip targetId done todo
      else
        removeScan targetId (done ++ [removeFromTreeCore targetId c]) todo

/-- After a `remove` the iterator skips one element: it joins the
processed part raw. -/
def removeSkip (targetId : Nat) (done : List Node) : List Node → List Node
  | [] => done
  | c :: todo => removeScan targetId (done ++ [c]) todo

end

/-- The source function `remove_from_tree`, with its `hasattr` guard.
It returns the mutated tree itself. -/
def remove_from_tree (tree : PyObj) (node : Node) : Except Err Node :=
  match tree with
  | .other => .error .typeError
  | .node n => .ok (removeFromTreeCore node.backend_node_id n)

/-- Claim C3: for every tree and pure predicate, `filter_recurse_all`
returns exactly the strict-subtree nodes satisfying the predicate, in
document order (hence with no duplicate positions), and `filter_recurse`
returns the head of that sequence — absent exactly when it is empty. -/
theorem find_all_find_first_spec (n : Node) (p : Node → Bool) :
    filter_recurse_all (.node n) p = .ok ((docOrderDescendants n).filter p)
      ∧ filter_recurse (.node n) p
          = .ok (((docOrderDescendants n).filter p).head?) := by
  constructor
  · rw [filter_recurse_all, filterRecurseAllCore_eq_filter]
  · rw [filter_recurse, filterRecurseCore_eq_head,
      filterRecurseAllCore_eq_filter]

/-- Claim C1 (code bug): on the tree with children A(id 1), B(id 2),
C(id 2), removing the node with identity 2 leaves children [A, C], not
[A]: `tree.children.remove(child)` during iteration makes the loop skip
C, so only B is discarded.  The theorem evaluates the source function at
the failing input. -/
theorem remove_same_id_siblings_skips_one :
    remove_from_tree (.node (.mk 0 [.mk 1 [], .mk 2 [], .mk 2 []])) (.mk 2 [])
        = .ok (.mk 0 [.mk 1 [], .mk 2 []])
      ∧ remove_from_tree (.node (.mk 0 [.mk 1 [], .mk 2 [], .mk 2 []]))
            (.mk 2 [])
          ≠ .ok (.mk 0 [.mk 1 []]) := by
  exact ⟨rfl, by decide⟩

/-- Claim C9 (code bug): with root children [B(id 2), X(id 7)] and X
having the single child B2(id 2), removing identity 2 discards B but
then skips X, so the occurrence of identity 2 at depth 2 survives —
the target is not removed at every depth where it occurs as a direct
child.  The theorem evaluates the source function at the failing
input. -/
theorem remove_multi_depth_occurrence_survives :
    remove_from_tree (.node (.mk 0 [.mk 2 [], .mk 7 [.mk 2 []]])) (.mk 2 [])
        = .ok (.mk 0 [.mk 7 [.mk 2 []]])
      ∧ (Node.mk 2 []) ∈ (Node.mk 7 [.mk 2 []]).children := by
  exact ⟨rfl, by simp [Node.children]⟩

/-!
Embedding of `html_from_tree`.  Per child, the source obtains the
markup of the child itself — `await child.get_html()` when
`isinstance(child, Element)`, otherwise
`await target.send(cdp.dom.get_outer_html(backend_node_id=...))` — and
appends it to `out`, then appends the recursive serialization of the
subtree of the child.  Awaits are issued sequentially in document
order, and an exception from either remote call propagates out of the
whole coroutine.  The external capabilities are parameters: `isElem`
models the `isinstance(child, Element)` test, `getHtml` the local
element capability, `fetch` the transport keyed by `backend_node_id`;
both calls may fail with a transport-level error.
-/

/-- Markup of one child as the source obtains it: locally for wrapped
elements, over the transport otherwise. -/
def markupOf (isElem : Node → Bool) (getHtml : Node → Except Err String)
    (fetch : Nat → Except Err String) (c : Node) : Except Err String :=
  if isElem c then getHtml c else fetch c.backend_node_id

mutual

/-- Core of `html_from_tree` after the `hasattr` guard. -/
def htmlFromTreeCore (isElem : Node → Bool)
    (getHtml : Node → Except Err String) (fetch : Nat → Except Err String) :
    Node → Except Err String
  | .mk _ cs => htmlFromTreeList isElem getHtml fetch cs

/-- Loop of `html_from_tree` over a child list, accumulating `out`. -/
def htmlFromTreeList (isElem : Node → Bool)
    (getHtml : Node → Except Err String) (fetch : Nat → Except Err String) :
    List Node → Except Err String
  | [] => .ok ""
  | c :: cs => do
      let m ← markupOf isElem getHtml fetch c
      let sub ← htmlFromTreeCore isElem getHtml fetch c
      let rest ← htmlFromTreeList isElem getHtml fetch cs
      pure (m ++ sub ++ rest)

end

/-- The source function `html_from_tree`, with its `hasattr` guard. -/
def html_from_tree (isElem : Node → Bool)
    (getHtml : Node → Except Err String) (fetch : Nat → Except Err String)
    (tree : PyObj) : Except Err String :=
  match tree with
  | .other => .error .typeError
  | .node n => htmlFromTreeCore isElem getHtml fetch n

/-- Claim C8: each of the four operations fails with `TypeError` on an
input that lacks the children relation, instead of returning a default
such as none, the empty list or the empty string. -/
theorem malformed_tree_fails_fast (p : Node → Bool) (tgt : Node)
    (isElem : Node → Bool) (getHtml : Node → Except Err String)
    (fetch : Nat → Except Err String) :
    filter_recurse .other p = .error .typeError
      ∧ filter_recurse_all .other p = .error .typeError
      ∧ remove_from_tree .other tgt = .error .typeError
      ∧ html_from_tree isElem getHtml fetch .other = .error .typeError :=
  ⟨rfl, rfl, rfl, rfl⟩

/-- Helper: binding a successful `Except` applies the continuation. -/
theorem exceptBind_ok (a : α) (f : α → Except ε β) :
    (Except.ok a >>= f) = f a := rfl

/-- Helper: binding a failed `Except` short-circuits (an awaited
exception propagates past the rest of the coroutine). -/
theorem exceptBind_error (e : ε) (f : α → Except ε β) :
    ((Except.error e : Except ε α) >>= f) = .error e := rfl

/-- Claim C6: `html_from_tree` on a tree with zero children returns the
empty string, and on a depth-1 tree with three children whose own
markups resolve to m1, m2, m3 it returns m1 ++ m2 ++ m3 in document
order.  (The source awaits the fetches sequentially in document order,
so there is no completion-timing dependence to quantify over.) -/
theorem serialize_empty_and_document_order (isElem : Node → Bool)
    (getHtml : Node → Except Err String) (fetch : Nat → Except Err String)
    (i j : Nat) (c1 c2 c3 : Node) (m1 m2 m3 : String)
    (hc1 : c1.children = []) (hc2 : c2.children = []) (hc3 : c3.children = [])
    (hm1 : markupOf isElem getHtml fetch c1 = .ok m1)
    (hm2 : markupOf isElem getHtml fetch c2 = .ok m2)
    (hm3 : markupOf isElem getHtml fetch c3 = .ok m3) :
    html_from_tree isElem getHtml fetch (.node (.mk i [])) = .ok ""
      ∧ html_from_tree isElem getHtml fetch (.node (.mk j [c1, c2, c3]))
          = .ok (m1 ++ m2 ++ m3) := by
  constructor
  · rfl
  · cases c1 with
    | mk a1 as1 =>
      cases c2 with
      | mk a2 as2 =>
        cases c3 with
        | mk a3 as3 =>
          simp only [Node.children] at hc1 hc2 hc3
          subst hc1; subst hc2; subst hc3
          simp only [html_from_tree, htmlFromTreeCore, htmlFromTreeList,
            hm1, hm2, hm3, exceptBind_ok]
          simp only [String.append_empty, String.append_assoc]
          rfl

/-- Witness for C6 at a concrete tree and transport. -/
theorem serialize_empty_and_document_order_witness :
    html_from_tree (fun _ => false) (fun _ => .ok "")
        (fun k => .ok (if k = 1 then "a" else if k = 2 then "b" else "c"))
        (.node (.mk 0 [])) = .ok ""
      ∧ html_from_tree (fun _ => false) (fun _ => .ok "")
          (fun k => .ok (if k = 1 then "a" else if k = 2 then "b" else "c"))
          (.node (.mk 9 [.mk 1 [], .mk 2 [], .mk 3 []]))
          = .ok ("a" ++ "b" ++ "c") :=
  serialize_empty_and_document_order (fun _ => false) (fun _ => .ok "")
    (fun k => .ok (if k = 1 then "a" else if k = 2 then "b" else "c"))
    0 9 (.mk 1 []) (.mk 2 []) (.mk 3 []) "a" "b" "c"
    rfl rfl rfl rfl rfl rfl

mutual

theorem htmlCore_error_mem (ie : Node → Bool) (gh : Node → Except Err String)
    (f : Nat → Except Err String) (n : Node) (e : Err)
    (h : htmlFromTreeCore ie gh f n = .error e) :
    ∃ c ∈ docOrderDescendants n, markupOf ie gh f c = .error e := by
  match n with
  | .mk i cs =>
    rw [htmlFromTreeCore] at h
    rw [docOrderDescendants]
    exact htmlList_error_mem ie gh f cs e h

theorem htmlList_error_mem (ie : Node → Bool) (gh : Node → Except Err String)
    (f : Nat → Except Err String) (cs : List Node) (e : Err)
    (h : htmlFromTreeList ie gh f cs = .error e) :
    ∃ c ∈ docOrderDescendantsList cs, markupOf ie gh f c = .error e := by
  match cs with
  | [] => rw [htmlFromTreeList] at h; cases h
  | c :: cs' =>
    rw [htmlFromTreeList] at h
    rw [docOrderDescendantsList]
    cases hm : markupOf ie gh f c with
    | error e1 =>
      rw [hm, exceptBind_error] at h
      injection h with he
      subst he
      exact ⟨c, by simp, hm⟩
    | ok m =>
      rw [hm, exceptBind_ok] at h
      cases hs : htmlFromTreeCore ie gh f c with
      | error e1 =>
        rw [hs, exceptBind_error] at h
        injection h with he
        subst he
        obtain ⟨c2, hc2, hfail⟩ := htmlCore_error_mem ie gh f c e1 hs
        exact ⟨c2, by simp [hc2], hfail⟩
      | ok sub =>
        rw [hs, exceptBind_ok] at h
        cases hr : htmlFromTreeList ie gh f cs' with
        | error e1 =>
          rw [hr, exceptBind_error] at h
          injection h with he
          subst he
          obtain ⟨c2, hc2, hfail⟩ := htmlList_error_mem ie gh f cs' e1 hr
          exact ⟨c2, by simp [hc2], hfail⟩
        | ok rest =>
          rw [hr, exceptBind_ok] at h
          cases h

end

mutual

theorem htmlCore_ok_markups (ie : Node → Bool) (gh : Node → Except Err String)
    (f : Nat → Except Err String) (n : Node) (s : String)
    (h : htmlFromTreeCore ie gh f n = .ok s) :
    ∀ c ∈ docOrderDescendants n, ∃ m, markupOf ie gh f c = .ok m := by
  match n with
  | .mk i cs =>
    rw [htmlFromTreeCore] at h
    rw [docOrderDescendants]
    exact htmlList_ok_markups ie gh f cs s h

theorem htmlList_ok_markups (ie : Node → Bool) (gh : Node → Except Err String)
    (f : Nat → Except Err String) (cs : List Node) (s : String)
    (h : htmlFromTreeList ie gh f cs = .ok s) :
    ∀ c ∈ docOrderDescendantsList cs, ∃ m, markupOf ie gh f c = .ok m := by
  match cs with
  | [] =>
    intro c hc
    rw [docOrderDescendantsList] at hc
    cases hc
  | c :: cs' =>
    rw [htmlFromTreeList] at h
    cases hm : markupOf ie gh f c with
    | error e1 => rw [hm, exceptBind_error] at h; cases h
    | ok m =>
      rw [hm, exceptBind_ok] at h
      cases hs : htmlFromTreeCore ie gh f c with
      | error e1 => rw [hs, exceptBind_error] at h; cases h
      | ok sub =>
        rw [hs, exceptBind_ok] at h
        cases hr : htmlFromTreeList ie gh f cs' with
        | error e1 => rw [hr, exceptBind_error] at h; cases h
        | ok rest =>
          intro c0 hc0
          rw [docOrderDescendantsList] at hc0
          rcases List.mem_cons.mp hc0 with hceq | hmem
          · exact ⟨m, hceq ▸ hm⟩
          · rcases List.mem_append.mp hmem with hin | hin
            · exact htmlCore_ok_markups ie gh f c sub hs c0 hin
            · exact htmlList_ok_markups ie gh f cs' rest hr c0 hin

end

/-- Claim C7: one `html_from_tree` call fails exactly when the markup
call (local capability or remote fetch) of some strict-subtree node
fails, and the error it returns is the error of such a failing call —
a failed fetch makes the whole serialize call fail with that error, and
no string result is produced. -/
theorem serialize_fetch_error_propagates (ie : Node → Bool) (gh : Node → Except Err String)
    (f : Nat → Except Err String) (n : Node) :
    ((∃ e, html_from_tree ie gh f (.node n) = .error e)
        ↔ ∃ c ∈ docOrderDescendants n, ∃ e, markupOf ie gh f c = .error e)
      ∧ ∀ e, html_from_tree ie gh f (.node n) = .error e →
          ∃ c ∈ docOrderDescendants n, markupOf ie gh f c = .error e := by
  have hwrap : html_from_tree ie gh f (.node n) = htmlFromTreeCore ie gh f n := rfl
  rw [hwrap]
  constructor
  · constructor
    · rintro ⟨e, he⟩
      obtain ⟨c, hc, hfail⟩ := htmlCore_error_mem ie gh f n e he
      exact ⟨c, hc, e, hfail⟩
    · rintro ⟨c, hc, e, hfail⟩
      cases hres : htmlFromTreeCore ie gh f n with
      | error e1 => exact ⟨e1, rfl⟩
      | ok s =>
        obtain ⟨m, hm⟩ := htmlCore_ok_markups ie gh f n s hres c hc
        rw [hfail] at hm
        cases hm
  · intro e he
    exact htmlCore_error_mem ie gh f n e he

/-!
Embedding of `deconstruct_browser` and `free_port`.

External capabilities are modelled per the interfaces the source uses:

* `Browser.stop()` and `Browser.stopped` (external to util.py): a handle
  carries its `stopped` flag; `stop()` either marks the handle stopped
  or raises (captured by the `stopFails` behaviour flag).  The source
  wraps the `_.stop()` call in no try block, so a raised stop error
  propagates out of `deconstruct_browser`.
* `Config` is modelled as always present on a handle (a Browser always
  carries its Config), with the `custom_data_dir` flag and the
  `user_data_dir` path the source reads; the `if _.config and ...`
  truthiness test is then true.
* The filesystem is a map from path to state: `present` (removal
  succeeds and the directory is gone), `absent` (`shutil.rmtree` raises
  `FileNotFoundError`), `locked` (it raises `PermissionError` and the
  directory stays locked).
* `__registered__instances__` is a Python set iterated in unspecified
  order; the model takes the iteration-order snapshot as a list.
* Observable actions (stop calls, rmtree calls, `time.sleep(0.15)`,
  `logger.debug`, `logger.info`) are recorded as an event trace.
-/

/-- Config fields read by `deconstruct_browser`. -/
structure Config : Type where
  custom_data_dir : Bool
  user_data_dir : String
deriving DecidableEq

/-- A registered browser handle as `deconstruct_browser` sees it. -/
structure Handle : Type where
  stopped : Bool
  stopFails : Bool
  config : Config
deriving DecidableEq

/-- State of one path on disk. -/
inductive FsEntry : Type where
  | present : FsEntry
  | absent : FsEntry
  | locked : FsEntry
deriving DecidableEq

/-- The filesystem, keyed by path. -/
def FS : Type := String → FsEntry

/-- Python exceptions raised during the drain. -/
inductive PyErr : Type where
  | fileNotFound : String → PyErr
  | permission : String → PyErr
  | stopError : PyErr
deriving DecidableEq

/-- Observable actions of the drain, in order. -/
inductive Event : Type where
  | stopCall : Event
  | rmtreeCall : String → Event
  | sleep150 : Event
  | logDebug : String → PyErr → Event
  | logInfo : String → Event
deriving DecidableEq

/-- One `shutil.rmtree(path, ignore_errors=False)` call: removes a
present directory, raises `FileNotFoundError` on an absent path and
`PermissionError` on a locked one. -/
def rmtree (fs : FS) (path : String) : FS × Option PyErr :=
  match fs path with
  | .present => (fun q => if q = path then .absent else fs q, none)
  | .absent => (fs, some (.fileNotFound path))
  | .locked => (fs, some (.permission path))

/-- The `for attempt in range(5)` retry loop, with `remaining + 1`
iterations left (on the branch for `remaining + 1` the current attempt
index is `4 - remaining`, so `attempt == 4` is `remaining = 0`).
Faithful details: when the
ownership guard is false or the removal succeeds there is no `break`,
so the loop simply runs the next attempt; `FileNotFoundError` breaks
silently; `PermissionError`/`OSError` sleeps 150ms and retries, and on
the fifth attempt logs the debug diagnostic (path and error) and
breaks. -/
def cleanupLoop (cfg : Config) (fs : FS) : Nat → FS × List Event
  | 0 => (fs, [])
  | remaining + 1 =>
      if cfg.custom_data_dir then
        cleanupLoop cfg fs remaining
      else
        let r := rmtree fs cfg.user_data_dir
        match r.2 with
        | none =>
            let next := cleanupLoop cfg r.1 remaining
            (next.1, .rmtreeCall cfg.user_data_dir :: next.2)
        | some (.fileNotFound _) =>
            (r.1, [.rmtreeCall cfg.user_data_dir])
        | some e =>
            if remaining = 0 then
              (r.1, [.rmtreeCall cfg.user_data_dir,
                .logDebug cfg.user_data_dir e])
            else
              let next := cleanupLoop cfg r.1 remaining
              (next.1,
                .rmtreeCall cfg.user_data_dir :: .sleep150 :: next.2)

/-- The per-handle body of the drain loop: stop the handle when it is
not already stopped (a stop failure propagates — the source has no try
around `_.stop()`), then run the bounded-retry removal, then the
unconditional `logger.info` line. -/
def processHandle (h : Handle) (fs : FS) :
    Handle × FS × List Event × Option PyErr :=
  if h.stopped then
    let r := cleanupLoop h.config fs 5
    (h, r.1, r.2 ++ [.logInfo h.config.user_data_dir], none)
  else if h.stopFails then
    (h, fs, [.stopCall], some .stopError)
  else
    let h1 : Handle := { h with stopped := true }
    let r := cleanupLoop h1.config fs 5
    (h1, r.1, .stopCall :: (r.2 ++ [.logInfo h1.config.user_data_dir]), none)

/-- The source function `deconstruct_browser` over the registry
snapshot: processes handles in iteration order; an uncaught exception
(from `stop()`) aborts the loop, leaving the remaining handles
untouched. -/
def deconstruct_browser (handles : List Handle) (fs : FS) :
    List Handle × FS × List Event × Option PyErr :=
  match handles with
  | [] => ([], fs, [], none)
  | h :: hs =>
      match processHandle h fs with
      | (h1, fs1, evs, some e) => (h1 :: hs, fs1, evs, some e)
      | (h1, fs1, evs, none) =>
          let rest := deconstruct_browser hs fs1
          (h1 :: rest.1, rest.2.1, evs ++ rest.2.2.1, rest.2.2.2)

/-- Claim C4: for an engine-owned directory whose removal always fails
with a lock error, the drain performs exactly 5 removal attempts with
the fixed 150ms sleep between consecutive attempts, then logs the debug
diagnostic naming the path and the error, and returns without
raising. -/
theorem bounded_retry_five_attempts_then_log (h : Handle) (fs : FS)
    (hst : h.stopped = true) (hown : h.config.custom_data_dir = false)
    (hl : fs h.config.user_data_dir = .locked) :
    processHandle h fs =
      (h, fs,
        [.rmtreeCall h.config.user_data_dir, .sleep150,
         .rmtreeCall h.config.user_data_dir, .sleep150,
         .rmtreeCall h.config.user_data_dir, .sleep150,
         .rmtreeCall h.config.user_data_dir, .sleep150,
         .rmtreeCall h.config.user_data_dir,
         .logDebug h.config.user_data_dir (.permission h.config.user_data_dir),
         .logInfo h.config.user_data_dir], none) := by
  simp only [processHandle, hst, if_true, cleanupLoop, hown, Bool.false_eq_true,
    if_false, rmtree, hl]
  simp

/-- Witness for C4 at a concrete handle and an always-locked path. -/
theorem bounded_retry_five_attempts_then_log_witness :
    processHandle ⟨true, false, ⟨false, "/tmp/p1"⟩⟩ (fun _ => .locked)
      = (⟨true, false, ⟨false, "/tmp/p1"⟩⟩, (fun _ => .locked),
        [.rmtreeCall "/tmp/p1", .sleep150,
         .rmtreeCall "/tmp/p1", .sleep150,
         .rmtreeCall "/tmp/p1", .sleep150,
         .rmtreeCall "/tmp/p1", .sleep150,
         .rmtreeCall "/tmp/p1",
         .logDebug "/tmp/p1" (.permission "/tmp/p1"),
         .logInfo "/tmp/p1"], none) :=
  bounded_retry_five_attempts_then_log ⟨true, false, ⟨false, "/tmp/p1"⟩⟩
    (fun _ => .locked) rfl rfl rfl

/-- Claim C5: when the directory is already absent, the first removal
attempt raises `FileNotFoundError`, which breaks out of the retry loop:
exactly one attempt, no sleep, no debug log, no error — the filesystem
and handle are untouched and nothing is raised. -/
theorem absent_dir_treated_as_success (h : Handle) (fs : FS)
    (hst : h.stopped = true) (hown : h.config.custom_data_dir = false)
    (ha : fs h.config.user_data_dir = .absent) :
    processHandle h fs =
      (h, fs,
        [.rmtreeCall h.config.user_data_dir,
         .logInfo h.config.user_data_dir], none) := by
  simp only [processHandle, hst, if_true, cleanupLoop, hown, Bool.false_eq_true,
    if_false, rmtree, ha]
  simp

/-- Witness for C5 at a concrete handle and a missing path. -/
theorem absent_dir_treated_as_success_witness :
    processHandle ⟨true, false, ⟨false, "/tmp/p2"⟩⟩ (fun _ => .absent)
      = (⟨true, false, ⟨false, "/tmp/p2"⟩⟩, (fun _ => .absent),
        [.rmtreeCall "/tmp/p2", .logInfo "/tmp/p2"], none) :=
  absent_dir_treated_as_success ⟨true, false, ⟨false, "/tmp/p2"⟩⟩
    (fun _ => .absent) rfl rfl rfl

/-- Counterexample to claim C2: registry order [H1, H2] where H1 is not
stopped and its `stop()` raises.  The drain aborts with the stop error
after the very first stop call: H2 is returned still not stopped, its
present directory is never removed, and no cleanup events for H2 are
recorded — a failure from one handle prevented the cleanup of
another. -/
theorem drain_aborted_by_stop_failure :
    deconstruct_browser
        [⟨false, true, ⟨false, "/tmp/p1"⟩⟩, ⟨false, false, ⟨false, "/tmp/p2"⟩⟩]
        (fun _ => .present)
      = ([⟨false, true, ⟨false, "/tmp/p1"⟩⟩,
          ⟨false, false, ⟨false, "/tmp/p2"⟩⟩],
        (fun _ => .present), [.stopCall], some .stopError) := rfl

/-- Per-handle drain step: when the handle is stopped or its stop call
succeeds, the step raises nothing, leaves the handle stopped, and
reaches its closing log line, whatever the filesystem does. -/
theorem processHandle_no_raise (h : Handle) (fs : FS)
    (hok : h.stopped = false → h.stopFails = false) :
    (processHandle h fs).2.2.2 = none
      ∧ (processHandle h fs).1.stopped = true
      ∧ Event.logInfo h.config.user_data_dir ∈ (processHandle h fs).2.2.1 := by
  cases hst : h.stopped with
  | true => refine ⟨?_, ?_, ?_⟩ <;> simp [processHandle, hst]
  | false =>
    have hsf : h.stopFails = false := hok hst
    refine ⟨?_, ?_, ?_⟩ <;> simp [processHandle, hst, hsf]

/-- Claim C2 as amended: once started, the drain processes every handle
in the registry provided no `stop()` call raises: no directory-removal
failure (locked or absent path) of one handle prevents another handle
from being stopped and reaching its cleanup; but a raised stop error is
not contained (see the counterexample), so the guarantee holds only for
drains in which every needed stop succeeds. -/
theorem drain_runs_to_completion (handles : List Handle) (fs : FS)
    (hok : ∀ h ∈ handles, h.stopped = false → h.stopFails = false) :
    (deconstruct_browser handles fs).2.2.2 = none
      ∧ (∀ h1 ∈ (deconstruct_browser handles fs).1, h1.stopped = true)
      ∧ ∀ h ∈ handles,
          Event.logInfo h.config.user_data_dir
            ∈ (deconstruct_browser handles fs).2.2.1 := by
  induction handles generalizing fs with
  | nil =>
    refine ⟨rfl, ?_, ?_⟩ <;> intro h1 hh1 <;> simp [deconstruct_browser] at hh1
  | cons h hs ih =>
    have hh := processHandle_no_raise h fs (hok h (by simp))
    rcases hpe : processHandle h fs with ⟨h1, fs1, evs, err⟩
    rw [hpe] at hh
    obtain ⟨herr, hstop, hmem⟩ := hh
    simp only at herr hstop hmem
    subst herr
    have ihr := ih fs1 (fun x hx => hok x (by simp [hx]))
    rw [deconstruct_browser, hpe]
    simp only
    refine ⟨ihr.1, ?_, ?_⟩
    · intro h2 hh2
      rcases List.mem_cons.mp hh2 with he | hm
      · exact he ▸ hstop
      · exact ihr.2.1 h2 hm
    · intro h2 hh2
      rcases List.mem_cons.mp hh2 with he | hm
      · subst he
        exact List.mem_append.mpr (Or.inl hmem)
      · exact List.mem_append.mpr (Or.inr (ihr.2.2 h2 hm))

/-- Witness for the amended C2: two handles, one needing a stop and one
already stopped, one directory locked — both handles are processed. -/
theorem drain_runs_to_completion_witness :
    (deconstruct_browser
        [⟨false, false, ⟨false, "/a"⟩⟩, ⟨true, true, ⟨false, "/b"⟩⟩]
        (fun q => if q = "/a" then .locked else .present)).2.2.2 = none
      ∧ (∀ h1 ∈ (deconstruct_browser
            [⟨false, false, ⟨false, "/a"⟩⟩, ⟨true, true, ⟨false, "/b"⟩⟩]
            (fun q => if q = "/a" then .locked else .present)).1,
          h1.stopped = true)
      ∧ ∀ h ∈ ([⟨false, false, ⟨false, "/a"⟩⟩,
            ⟨true, true, ⟨false, "/b"⟩⟩] : List Handle),
          Event.logInfo h.config.user_data_dir
            ∈ (deconstruct_browser
                [⟨false, false, ⟨false, "/a"⟩⟩, ⟨true, true, ⟨false, "/b"⟩⟩]
                (fun q => if q = "/a" then .locked else .present)).2.2.1 :=
  drain_runs_to_completion
    [⟨false, false, ⟨false, "/a"⟩⟩, ⟨true, true, ⟨false, "/b"⟩⟩]
    (fun q => if q = "/a" then .locked else .present) (by decide)

/-- State of the one socket `free_port` manipulates. -/
inductive SockState : Type where
  | fresh : SockState
  | bound : String → Nat → SockState
  | listening : String → Nat → SockState
  | closed : String → Nat → SockState
deriving DecidableEq

/-- The socket facility consumed by `free_port`: for a bind to port 0
the OS picks `nextEphemeralPort`. -/
structure SockWorld : Type where
  nextEphemeralPort : Nat

/-- Model of `socket.bind((host, port))`: binding port 0 asks the OS
for an ephemeral port. -/
def socket_bind (w : SockWorld) (s : SockState) (host : String)
    (port : Nat) : SockState :=
  match s with
  | .fresh => .bound host (if port = 0 then w.nextEphemeralPort else port)
  | s => s

/-- Model of `socket.listen(backlog)`. -/
def socket_listen (s : SockState) (backlog : Nat) : SockState :=
  match s, backlog with
  | .bound h p, _ => .listening h p
  | s, _ => s

/-- Model of `socket.getsockname()[1]`: the port the socket is bound
to (0 for an unbound socket, as in the real API). -/
def socket_getsockname (s : SockState) : Nat :=
  match s with
  | .fresh => 0
  | .bound _ p => p
  | .listening _ p => p
  | .closed _ p => p

/-- Model of `socket.close()`. -/
def socket_close (s : SockState) : SockState :=
  match s with
  | .bound h p => .closed h p
  | .listening h p => .closed h p
  | s => s

/-- The source function `free_port`: create a socket, bind it to
("127.0.0.1", 0), listen, read the assigned port back, close the
socket, return the port.  The returned pair carries the final state of
the socket so closure is observable. -/
def free_port (w : SockWorld) : Nat × SockState :=
  let free_socket := SockState.fresh
  let free_socket2 := socket_bind w free_socket "127.0.0.1" 0
  let free_socket3 := socket_listen free_socket2 5
  let port := socket_getsockname free_socket3
  let free_socket4 := socket_close free_socket3
  (port, free_socket4)

/-- Claim C10: `free_port` returns exactly the port the OS assigned to
its loopback socket, and the socket is closed when it returns; an
immediately following call (any fresh world) succeeds the same way. -/
theorem free_port_returns_os_port_and_closes (w w2 : SockWorld) :
    (free_port w).1 = w.nextEphemeralPort
      ∧ (free_port w).2 = .closed "127.0.0.1" w.nextEphemeralPort
      ∧ (free_port w2).1 = w2.nextEphemeralPort :=
  ⟨rfl, rfl, rfl⟩
